import Mathlib

/-! CPU discovery and thread pinning (`cpu.c`)

A shallow embedding of `cpu.c`: the three process-wide variables `cpuset`,
`cpuset_ncpu`, `cpuset_size`, the discovery routine `get_num_cpus` and the pinning
routine `set_working_cpu`, written once over the CPU-set primitives of the platform
(`CPU_ALLOC_SIZE`, `CPU_ZERO_S`, `CPU_SET_S`, `CPU_ISSET_S`, `CPU_COUNT_S`), together
with the two sets of primitives the file is compiled against: the C library's
(`Native`) and the replacement definitions of lines 13-56 (`Shim`).

A CPU set is represented by the natural number whose binary digits are its bits
(bit `i` is CPU `i`). Operating-system calls are parameters: each call returns the
reply the parameter gives. Loops that need not terminate take a fuel argument and
return `none` when it runs out.
-/

namespace Cpu

/-! ## Machine integers -/

/-- The value of `errno` meaning "invalid argument". -/
def EINVAL : Int := 22

/-- Smallest value of a C `int`. -/
def INT_MIN : Int := -2147483648

/-- Largest value of a C `int`. -/
def INT_MAX : Int := 2147483647

/-- Reduction of an integer to the 32-bit two's complement range of a C `int`. -/
def wrap_int (x : Int) : Int := (x + 2147483648) % 4294967296 - 2147483648

/-- The statement `cpuset_ncpu *= 2` on a C `int` (line 97). -/
def int_double (n : Int) : Int := wrap_int (n * 2)

/-- The decrement `thread--` on a C `int` (line 123): one less, going round from
`INT_MIN` to `INT_MAX`. -/
def int_dec (t : Int) : Int := if t = INT_MIN then INT_MAX else t - 1

/-! ## The platform's CPU-set primitives -/

/-- The CPU-set primitives that `get_num_cpus` and `set_working_cpu` are compiled
against. The set argument and result are bit masks. -/
structure Platform where
  /-- Bytes to allocate for a set of `num` CPUs. -/
  CPU_ALLOC_SIZE : Int → Nat
  /-- Clear the set: arguments are `setsize` and the set. -/
  CPU_ZERO_S : Nat → Nat → Nat
  /-- Add a CPU: arguments are `num`, `setsize` and the set. -/
  CPU_SET_S : Nat → Nat → Nat → Nat
  /-- Membership test, `true` for a nonzero C result: `num`, `setsize`, the set. -/
  CPU_ISSET_S : Nat → Nat → Nat → Bool
  /-- The count the platform reports for a set: `setsize` and the set. -/
  CPU_COUNT_S : Nat → Nat → Int

namespace Native

/-- Modelled from the spec: the native-mask provider's allocation size, which is the
C library's `CPU_ALLOC_SIZE` from `sched.h` and not part of `cpu.c`. The set is an
array of 64-bit words, so `num` CPUs take `(num + 63) / 64` words of 8 bytes, computed
in `size_t`. For a multiple of 64 this is `num / 8` bytes. -/
def CPU_ALLOC_SIZE (num : Int) : Nat :=
  (((num % 18446744073709551616).toNat + 63) % 18446744073709551616 / 64) * 8

/-- Modelled from the spec: the native-mask provider's `CPU_ZERO_S` (C library,
not part of `cpu.c`): every bit of the set is cleared. -/
def CPU_ZERO_S (_setsize : Nat) (_set : Nat) : Nat := 0

/-- Modelled from the spec: the native-mask provider's `CPU_SET_S` (C library,
not part of `cpu.c`): bit `num` is set when it lies inside the `setsize` bytes of
the set, and nothing happens otherwise. -/
def CPU_SET_S (num : Nat) (setsize : Nat) (set : Nat) : Nat :=
  if num / 8 < setsize then set ||| (1 <<< num) else set

/-- Modelled from the spec: the native-mask provider's `CPU_ISSET_S` (C library,
not part of `cpu.c`): bit `num` of the set, and false outside its `setsize` bytes. -/
def CPU_ISSET_S (num : Nat) (setsize : Nat) (set : Nat) : Bool :=
  decide (num / 8 < setsize) && set.testBit num

/-- Modelled from the spec: the native-mask provider's `CPU_COUNT_S` (C library,
not part of `cpu.c`): the number of set bits among the `8 * setsize` bits of the
set. -/
def CPU_COUNT_S (setsize : Nat) (set : Nat) : Int :=
  (((List.range (8 * setsize)).filter (fun i => set.testBit i)).length : Int)

end Native

/-- The native-mask platform: the primitives of the C library. -/
def native : Platform where
  CPU_ALLOC_SIZE := Native.CPU_ALLOC_SIZE
  CPU_ZERO_S := Native.CPU_ZERO_S
  CPU_SET_S := Native.CPU_SET_S
  CPU_ISSET_S := Native.CPU_ISSET_S
  CPU_COUNT_S := Native.CPU_COUNT_S

namespace Shim

/-- The C expression `1 << num` of lines 21, 24, 27 and 52, as the 32-bit word it is
combined with. It is `2 ^ num` for `num ≤ 31`. C leaves the shift undefined from
`num = 32` on; the compiled code shifts a 32-bit register, which takes the shift
count modulo 32, and that is what this definition gives. The claims below use it for
`num ≤ 31` only, except where an index beyond the word is the point. -/
def shl1 (num : Nat) : Nat := (1 <<< (num % 32)) % 4294967296

/-- Line 36: `CPU_ALLOC_SIZE(num)` is `sizeof(cpu_set_t)`, one `uint32_t`. -/
def CPU_ALLOC_SIZE (_num : Int) : Nat := 4

/-- Line 18: `cs->count = 0`. -/
def CPU_ZERO_S (_setsize : Nat) (_count : Nat) : Nat := 0

/-- Line 21: `cs->count |= (1 << num)`. -/
def CPU_SET_S (num : Nat) (_setsize : Nat) (count : Nat) : Nat := count ||| shl1 num

/-- Line 24: `CPU_ISSET` returns `cs->count & (1 << num)`, nonzero meaning member. -/
def CPU_ISSET (num : Nat) (count : Nat) : Bool := (count &&& shl1 num) != 0

/-- Line 27: `CPU_ISSET_S` returns `cs->count & (1 << num)`. -/
def CPU_ISSET_S (num : Nat) (_setsize : Nat) (count : Nat) : Bool :=
  (count &&& shl1 num) != 0

/-- Line 39: `CPU_COUNT_S` returns `set->count`, the 32-bit word itself, converted
to `int`. -/
def CPU_COUNT_S (_setsize : Nat) (count : Nat) : Int := wrap_int count

end Shim

/-- The placement-hint platform: the primitives defined in lines 13-39. -/
def shim : Platform where
  CPU_ALLOC_SIZE := Shim.CPU_ALLOC_SIZE
  CPU_ZERO_S := Shim.CPU_ZERO_S
  CPU_SET_S := Shim.CPU_SET_S
  CPU_ISSET_S := Shim.CPU_ISSET_S
  CPU_COUNT_S := Shim.CPU_COUNT_S

/-! ## Operating-system replies -/

/-- What a call of `sched_getaffinity` leaves behind: its return value, the value
of `errno` after it, and the contents of the set it was given. -/
structure AffinityReply where
  ret : Int
  errno : Int
  set : Nat
  deriving DecidableEq, Repr

/-- What `sysctlbyname("machdep.cpu.core_count", ...)` leaves behind (line 45):
its return value, the value written to `core_count`, and `errno`. -/
structure SysctlReply where
  ret : Int
  core_count : Int
  errno : Int
  deriving DecidableEq, Repr

namespace Shim

/-- Lines 41-56: the replacement `sched_getaffinity`. A failed hardware query gives
`-1` and leaves the set as it was; otherwise the set is cleared, bit `i` is set for
every `0 ≤ i < core_count`, and the result is `0`. -/
def sched_getaffinity (sys : SysctlReply) (_cpu_size : Nat) (cpu_set : Nat) :
    AffinityReply :=
  if sys.ret ≠ 0 then
    { ret := -1, errno := sys.errno, set := cpu_set }
  else
    { ret := 0, errno := sys.errno,
      set := (List.range sys.core_count.toNat).foldl (fun count i => count ||| shl1 i) 0 }

end Shim

/-! ## Process-wide state (lines 76-78) -/

/-- The three static variables. `cpuset = none` is the null pointer; otherwise it
holds the contents of the allocated set. -/
structure State where
  cpuset : Option Nat
  cpuset_ncpu : Int
  cpuset_size : Nat
  deriving DecidableEq, Repr

/-- The state of a process before any call: static storage is zero. -/
def initial_state : State := { cpuset := none, cpuset_ncpu := 0, cpuset_size := 0 }

/-! ## `get_num_cpus` (lines 83-108) -/

/-- The result of a call of `get_num_cpus`: the value returned, the state left,
and the `(cpuset_ncpu, cpuset_size)` of every `sched_getaffinity` call made, in
order. -/
structure Discovery where
  ret : Int
  state : State
  queries : List (Int × Nat)
  deriving DecidableEq, Repr

/-- The `while(1)` loop of lines 87-107. `query j size` is the reply of the `j`-th
call of `sched_getaffinity` (counting from 0), made with `cpu_size = size`; `ncpu` is
the current `cpuset_ncpu` and `done` the calls made so far. -/
def get_num_cpus_loop (P : Platform) (query : Nat → Nat → AffinityReply) :
    Nat → Nat → Int → List (Int × Nat) → Option Discovery
  | 0, _, _, _ => none
  | fuel + 1, j, ncpu, done =>
    let size := P.CPU_ALLOC_SIZE ncpu
    let r := query j size
    let done1 := done ++ [(ncpu, size)]
    if r.ret = 0 then
      some { ret := P.CPU_COUNT_S size r.set,
             state := { cpuset := some r.set, cpuset_ncpu := ncpu, cpuset_size := size },
             queries := done1 }
    else if r.errno = EINVAL then
      get_num_cpus_loop P query fuel (j + 1) (int_double ncpu) done1
    else
      some { ret := 1,
             state := { cpuset := none, cpuset_ncpu := 0, cpuset_size := 0 },
             queries := done1 }

/-- Lines 83-108: `get_num_cpus`. The three variables are overwritten, so the state
before the call plays no part. -/
def get_num_cpus (P : Platform) (query : Nat → Nat → AffinityReply) (fuel : Nat)
    (_before : State) : Option Discovery :=
  get_num_cpus_loop P query fuel 0 1024 []

/-! ## `set_working_cpu` (lines 112-133) -/

/-- The loop variables of lines 122-132: the index `i` (never negative: it starts at
0 and is only incremented or reset to 0) and the parameter `thread`. -/
structure Walk where
  i : Nat
  thread : Int
  deriving DecidableEq, Repr

/-- One pass through the loop body either enters the `if` with the current `i`, or
goes on with new loop variables. -/
inductive WalkStep where
  | select (i : Nat)
  | next (w : Walk)
  deriving DecidableEq, Repr

/-- Lines 130-131: `if(++i >= cpuset_ncpu) i=0;`. -/
def next_index (ncpu : Int) (i : Nat) : Nat :=
  if ncpu ≤ ((i + 1 : Nat) : Int) then 0 else i + 1

/-- One pass through the body of the loop of lines 122-132. The test
`CPU_ISSET_S(...) && !thread--` reads and decrements `thread` only when the CPU is
in the set, and holds when the value read is 0. -/
def walk_step (P : Platform) (size : Nat) (set : Nat) (ncpu : Int) (w : Walk) : WalkStep :=
  if P.CPU_ISSET_S w.i size set then
    if w.thread = 0 then .select w.i
    else .next { i := next_index ncpu w.i, thread := int_dec w.thread }
  else .next { i := next_index ncpu w.i, thread := w.thread }

/-- The loop of lines 122-132 run for at most `fuel` passes: the index with which
the `if` is entered, or `none` when the fuel runs out first. -/
def walk (P : Platform) (size : Nat) (set : Nat) (ncpu : Int) : Nat → Walk → Option Nat
  | 0, _ => none
  | fuel + 1, w =>
    match walk_step P size set ncpu w with
    | .select i => some i
    | .next w1 => walk P size set ncpu fuel w1

/-- A call of `sched_setaffinity` as the operating system sees it: the `cpu_size`
and the set it was given, and the value it returned. -/
structure AffinityCall where
  cpu_size : Nat
  set : Nat
  ret : Int
  deriving DecidableEq, Repr

/-- How a call of `set_working_cpu` ends: it returns, leaving a state and having made
the listed `sched_setaffinity` calls, or it reads through a null `cpuset`. -/
inductive PinOutcome where
  | returned (state : State) (calls : List AffinityCall)
  | fault
  deriving DecidableEq, Repr

/-- Lines 112-133: `set_working_cpu(thread)`. `sched_setaffinity size set` is the
value the operating system returns for the request; the code discards it. `none`
means the loop was still running when the fuel ran out. -/
def set_working_cpu (P : Platform) (sched_setaffinity : Nat → Nat → Int) (fuel : Nat)
    (s : State) (thread : Int) : Option PinOutcome :=
  if s.cpuset_size = 0 then some (.returned s [])
  else
    match s.cpuset with
    | none => some .fault
    | some set =>
      match walk P s.cpuset_size set s.cpuset_ncpu fuel { i := 0, thread := thread } with
      | none => none
      | some i =>
        let zeroed := P.CPU_ZERO_S s.cpuset_size set
        let single := P.CPU_SET_S i s.cpuset_size zeroed
        let ret := sched_setaffinity s.cpuset_size single
        some (.returned { s with cpuset := some single }
          [{ cpu_size := s.cpuset_size, set := single, ret := ret }])

/-- The calls `set_working_cpu(k)` for the `k` of a list, one after another, each on
the state the previous one left: the final state and all `sched_setaffinity` calls
made, or `none` when one of them does not return. -/
def set_working_cpu_seq (P : Platform) (sched_setaffinity : Nat → Nat → Int) (fuel : Nat) :
    State → List Int → Option (State × List AffinityCall)
  | s, [] => some (s, [])
  | s, k :: ks =>
    match set_working_cpu P sched_setaffinity fuel s k with
    | some (.returned s1 calls) =>
      match set_working_cpu_seq P sched_setaffinity fuel s1 ks with
      | some (s2, more) => some (s2, calls ++ more)
      | none => none
    | _ => none

/-! ## Vocabulary of the specification -/

/-- The members of a stored set, in ascending order: the indices below the bit
capacity `8 * size` whose bit is set. -/
def members (size : Nat) (set : Nat) : List Nat :=
  (List.range (8 * size)).filter (fun i => set.testBit i)

/-- The set members met by the walk between index `i` and index `i + n`. -/
def seen (P : Platform) (size set i n : Nat) : List Nat :=
  (List.range' i n).filter (fun j => P.CPU_ISSET_S j size set)

/-- The value of `cpuset_ncpu` at the `j`-th call of `sched_getaffinity` (counting
from 0): 1024 doubled `j` times as a C `int`. -/
def capacity : Nat → Int
  | 0 => 1024
  | j + 1 => int_double (capacity j)

/-- The reply that the `j`-th call of `sched_getaffinity` made by `get_num_cpus`
gets. -/
def reply (P : Platform) (query : Nat → Nat → AffinityReply) (j : Nat) : AffinityReply :=
  query j (P.CPU_ALLOC_SIZE (capacity j))

/-- The first `n` calls of `sched_getaffinity` made by `get_num_cpus`, as pairs of
`cpuset_ncpu` and `cpuset_size`. -/
def attempts (P : Platform) (j n : Nat) : List (Int × Nat) :=
  (List.range' j n).map (fun i => (capacity i, P.CPU_ALLOC_SIZE (capacity i)))

namespace Shim

/-- The calls of `sched_getaffinity` that `get_num_cpus` makes on the placement-hint
platform: the `j`-th one runs lines 41-56 on the hardware reply `sys j` and on a
freshly allocated set of contents `fresh j`. -/
def query (sys : Nat → SysctlReply) (fresh : Nat → Nat) : Nat → Nat → AffinityReply :=
  fun j size => sched_getaffinity (sys j) size (fresh j)

end Shim

/-- An operating system whose `sched_getaffinity` always succeeds, with the given
affinity mask. -/
def getaffinity_ok (mask : Nat) : Nat → Nat → AffinityReply :=
  fun _ _ => { ret := 0, errno := 0, set := mask }

/-- An operating system whose `sched_getaffinity` fails with `EINVAL` in the calls
before the `n`-th and with the other error `errno` from then on. -/
def getaffinity_fails_after (n : Nat) (errno : Int) : Nat → Nat → AffinityReply :=
  fun j _ => if j < n then { ret := -1, errno := EINVAL, set := 0 }
             else { ret := -1, errno := errno, set := 0 }

/-- An operating system whose `sched_getaffinity` depends on the size of the set
only: `EINVAL` below `T` bits, and the given mask from `T` bits on. -/
def getaffinity_threshold (T mask : Nat) : Nat → AffinityReply :=
  fun size => if 8 * size < T then { ret := -1, errno := EINVAL, set := 0 }
              else { ret := 0, errno := 0, set := mask }

namespace Shim

/-- The loop of lines 64-66, `for (core = 0; core < 8 * cpu_size; core++)` leaving at
the first `core` that `CPU_ISSET` finds in the set: the value of `core` after the
loop, started at `core` with `n` values still to try. It is the bound `8 * cpu_size`
when no bit is found. -/
def scan (cpu_set : Nat) : Nat → Nat → Nat
  | 0, core => core
  | n + 1, core => if CPU_ISSET core cpu_set then core else scan cpu_set n (core + 1)

/-- What the replacement `sched_setaffinity` does: the `core` of the one affinity
policy it hands to `thread_policy_set` (lines 68-71) and the value it returns. -/
structure Placement where
  core : Nat
  ret : Int
  deriving DecidableEq, Repr

/-- Lines 58-73: the replacement `sched_setaffinity`. It scans for the first set bit,
requests the placement policy for that core, and returns 0 whatever
`thread_policy_set` reports. -/
def sched_setaffinity (cpu_size : Nat) (cpu_set : Nat) : Placement :=
  { core := scan cpu_set (8 * cpu_size) 0, ret := 0 }

end Shim

/-- The loop of lines 122-132 after `n` passes: the loop variables then, or the index
with which the `if` was entered within those passes. -/
def walk_iterate (P : Platform) (size : Nat) (set : Nat) (ncpu : Int) : Nat → Walk → WalkStep
  | 0, w => .next w
  | n + 1, w =>
    match walk_step P size set ncpu w with
    | .select i => .select i
    | .next w1 => walk_iterate P size set ncpu n w1

/-- The indices handed to `CPU_ISSET_S` in the first `n` passes of the loop of lines
122-132, in order. The index handed to `CPU_SET_S` (line 125) is the last one tested. -/
def walk_tested (P : Platform) (size : Nat) (set : Nat) (ncpu : Int) : Nat → Walk → List Nat
  | 0, _ => []
  | n + 1, w =>
    w.i :: (match walk_step P size set ncpu w with
            | .select _ => []
            | .next w1 => walk_tested P size set ncpu n w1)

/-- An operating system whose `sched_getaffinity` fails with `EINVAL` in the calls
before the `n`-th and succeeds with the given mask from then on. -/
def getaffinity_ok_after (n : Nat) (mask : Nat) : Nat → Nat → AffinityReply :=
  fun j _ => if j < n then { ret := -1, errno := EINVAL, set := 0 }
             else { ret := 0, errno := 0, set := mask }

/-- A host of the placement-hint platform whose hardware query succeeds and reports
`N` cores, as the calls of `sched_getaffinity` made by `get_num_cpus`. -/
def shim_host (N : Nat) : Nat → Nat → AffinityReply :=
  Shim.query (fun _ => { ret := 0, core_count := (N : Int), errno := 0 }) (fun _ => 0)

/-- The state a successful `get_num_cpus` leaves on the placement-hint platform for a
host of `N` cores: the mask `2 ^ N - 1` in one 4-byte word, capacity 1024. -/
def shim_state (N : Nat) : State :=
  { cpuset := some (2 ^ N - 1), cpuset_ncpu := 1024, cpuset_size := 4 }

/-- The replacement `sched_setaffinity` as the parameter of `set_working_cpu`: the
value it returns. -/
def shim_setaffinity : Nat → Nat → Int :=
  fun size set => (Shim.sched_setaffinity size set).ret

/-- The set with the single member `m`, as a bit mask. -/
def single_cpu (m : Nat) : Nat := 2 ^ m

/-- An operating system whose `sched_setaffinity` always succeeds. -/
def setaffinity_ok : Nat → Nat → Int := fun _ _ => 0

/-- An operating system whose `sched_setaffinity` always fails. -/
def setaffinity_fails : Nat → Nat → Int := fun _ _ => -1

/-- The state a successful `get_num_cpus` leaves on the native-mask platform at the
first capacity, 1024 CPUs in 128 bytes, for a given affinity mask. -/
def native_state (mask : Nat) : State :=
  { cpuset := some mask, cpuset_ncpu := 1024, cpuset_size := 128 }

end Cpu

namespace Cpu

/-! ## The counting walk -/

theorem int_dec_succ (m : Nat) : int_dec ((m + 1 : Nat) : Int) = (m : Int) := by
  unfold int_dec INT_MIN INT_MAX
  split <;> omega

theorem next_index_lt (N i : Nat) (h : i + 1 < N) : next_index (N : Int) i = i + 1 := by
  unfold next_index
  split <;> omega

theorem next_index_last (N i : Nat) (h : N ≤ i + 1) : next_index (N : Int) i = 0 := by
  unfold next_index
  split <;> omega

theorem walk_succ_skip (P : Platform) (size set : Nat) (ncpu : Int) (fuel i : Nat) (t : Int)
    (hb : P.CPU_ISSET_S i size set = false) :
    walk P size set ncpu (fuel + 1) { i := i, thread := t } =
      walk P size set ncpu fuel { i := next_index ncpu i, thread := t } := by
  simp [walk, walk_step, hb]

theorem walk_succ_hit (P : Platform) (size set : Nat) (ncpu : Int) (fuel i : Nat)
    (hb : P.CPU_ISSET_S i size set = true) :
    walk P size set ncpu (fuel + 1) { i := i, thread := 0 } = some i := by
  simp [walk, walk_step, hb]

theorem walk_succ_count (P : Platform) (size set : Nat) (ncpu : Int) (fuel i m : Nat)
    (hb : P.CPU_ISSET_S i size set = true) :
    walk P size set ncpu (fuel + 1) { i := i, thread := ((m + 1 : Nat) : Int) } =
      walk P size set ncpu fuel { i := next_index ncpu i, thread := (m : Int) } := by
  have h0 : ((m + 1 : Nat) : Int) ≠ 0 := by omega
  simp only [walk, walk_step, hb, if_true, if_neg h0, int_dec_succ]

theorem seen_zero (P : Platform) (size set i : Nat) : seen P size set i 0 = [] := rfl

theorem seen_succ_hit (P : Platform) (size set i n : Nat)
    (hb : P.CPU_ISSET_S i size set = true) :
    seen P size set i (n + 1) = i :: seen P size set (i + 1) n := by
  simp [seen, List.range'_succ, List.filter_cons, hb]

theorem seen_succ_skip (P : Platform) (size set i n : Nat)
    (hb : P.CPU_ISSET_S i size set = false) :
    seen P size set i (n + 1) = seen P size set (i + 1) n := by
  simp [seen, List.range'_succ, List.filter_cons, hb]

/-- Walking `n` indices from `i` without passing the capacity `N`: the walk selects
the `m`-th member it meets, or goes on from where it got to with the counter reduced
by the members met. -/
theorem walk_pass (P : Platform) (size set N : Nat) :
    ∀ (n i m fuel : Nat), i < N → i + n ≤ N →
      walk P size set (N : Int) (fuel + n) { i := i, thread := (m : Int) } =
        if m < (seen P size set i n).length then (seen P size set i n)[m]?
        else walk P size set (N : Int) fuel
          { i := if i + n = N then 0 else i + n,
            thread := ((m - (seen P size set i n).length : Nat) : Int) } := by
  intro n
  induction n with
  | zero =>
    intro i m fuel hi _
    have h : ¬ i = N := by omega
    simp [seen_zero, h]
  | succ n ih =>
    intro i m fuel hi hn
    rw [← Nat.add_assoc]
    cases hb : P.CPU_ISSET_S i size set with
    | false =>
      rw [walk_succ_skip P size set N (fuel + n) i m hb, seen_succ_skip P size set i n hb]
      by_cases hlast : i + 1 = N
      · have hn0 : n = 0 := by omega
        subst hn0
        rw [next_index_last N i (by omega)]
        simp [seen_zero, hlast]
      · rw [next_index_lt N i (by omega), ih (i + 1) m fuel (by omega) (by omega)]
        simp only [Nat.add_assoc, Nat.add_comm 1 n]
    | true =>
      rw [seen_succ_hit P size set i n hb]
      cases m with
      | zero =>
        have h0 : ((0 : Nat) : Int) = 0 := rfl
        rw [h0, walk_succ_hit P size set N (fuel + n) i hb]
        simp
      | succ m =>
        rw [walk_succ_count P size set N (fuel + n) i m hb]
        by_cases hlast : i + 1 = N
        · have hn0 : n = 0 := by omega
          subst hn0
          rw [next_index_last N i (by omega)]
          simp [seen_zero, hlast]
        · rw [next_index_lt N i (by omega), ih (i + 1) m fuel (by omega) (by omega)]
          simp only [Nat.add_assoc, Nat.add_comm 1 n, List.length_cons,
            Nat.add_lt_add_iff_right, List.getElem?_cons_succ, Nat.add_sub_add_right]

/-- One full round from index 0. -/
theorem walk_round (P : Platform) (size set N : Nat) (hN : 0 < N) (m fuel : Nat) :
    walk P size set (N : Int) (fuel + N) { i := 0, thread := (m : Int) } =
      if m < (seen P size set 0 N).length then (seen P size set 0 N)[m]?
      else walk P size set (N : Int) fuel
        { i := 0, thread := ((m - (seen P size set 0 N).length : Nat) : Int) } := by
  have h := walk_pass P size set N N 0 m fuel hN (by omega)
  simpa using h

/-- After `q` full rounds the walk selects in round `q + 1`. -/
theorem walk_rounds (P : Platform) (size set N : Nat) (hN : 0 < N) :
    ∀ (q r fuel : Nat), r < (seen P size set 0 N).length →
      walk P size set (N : Int) (fuel + (q + 1) * N)
        { i := 0, thread := ((q * (seen P size set 0 N).length + r : Nat) : Int) } =
        (seen P size set 0 N)[r]? := by
  intro q
  induction q with
  | zero =>
    intro r fuel hr
    have h := walk_round P size set N hN r fuel
    simpa [hr] using h
  | succ q ih =>
    intro r fuel hr
    have e : fuel + (q + 1 + 1) * N = (fuel + (q + 1) * N) + N := by
      rw [Nat.add_mul (q + 1) 1 N]; omega
    have hge : ¬ (q + 1) * (seen P size set 0 N).length + r < (seen P size set 0 N).length := by
      rw [Nat.add_mul]; omega
    have hsub : (q + 1) * (seen P size set 0 N).length + r - (seen P size set 0 N).length =
        q * (seen P size set 0 N).length + r := by
      rw [Nat.add_mul]; omega
    rw [e, walk_round P size set N hN _ _, if_neg hge, hsub]
    exact ih r fuel hr

/-- With at least one member below the capacity, the walk started at index 0 with a
counter `k ≥ 0` selects member number `k mod C` of those it meets in a round, within
`(k + 1) * N` passes. -/
theorem walk_select (P : Platform) (size set N : Nat) (k : Nat) (fuel : Nat)
    (hC : 0 < (seen P size set 0 N).length) (hfuel : (k + 1) * N ≤ fuel) :
    walk P size set (N : Int) fuel { i := 0, thread := (k : Int) } =
      (seen P size set 0 N)[k % (seen P size set 0 N).length]? := by
  have hN : 0 < N := by
    rcases Nat.eq_zero_or_pos N with h | h
    · subst h; simp [seen] at hC
    · exact h
  have hq : (k / (seen P size set 0 N).length + 1) * N ≤ (k + 1) * N :=
    Nat.mul_le_mul_right N (Nat.succ_le_succ (Nat.div_le_self _ _))
  obtain ⟨extra, he⟩ := Nat.exists_eq_add_of_le (Nat.le_trans hq hfuel)
  have h := walk_rounds P size set N hN (k / (seen P size set 0 N).length)
    (k % (seen P size set 0 N).length) extra (Nat.mod_lt _ hC)
  have hk : k / (seen P size set 0 N).length * (seen P size set 0 N).length +
      k % (seen P size set 0 N).length = k := Nat.div_add_mod' _ _
  rw [hk] at h
  rw [he, Nat.add_comm _ extra]
  exact h

/-! ## The native-mask primitives -/

theorem filter_range_bounded (p : Nat → Bool) (a : Nat) (h : ∀ j, p j = true → j < a) :
    ∀ d : Nat, (List.range (a + d)).filter p = (List.range a).filter p := by
  intro d
  induction d with
  | zero => rfl
  | succ d ih =>
    have hp : p (a + d) = false := by
      cases hpd : p (a + d) with
      | false => rfl
      | true => have := h _ hpd; omega
    rw [← Nat.add_assoc, List.range_succ, List.filter_append, ih]
    simp [List.filter_cons, hp]

theorem filter_range_eq (p : Nat → Bool) (a b : Nat) (ha : ∀ j, p j = true → j < a)
    (hb : ∀ j, p j = true → j < b) :
    (List.range a).filter p = (List.range b).filter p := by
  rcases Nat.le_total a b with hab | hab
  · obtain ⟨d, rfl⟩ := Nat.exists_eq_add_of_le hab
    exact (filter_range_bounded p a ha d).symm
  · obtain ⟨d, rfl⟩ := Nat.exists_eq_add_of_le hab
    exact filter_range_bounded p b hb d

theorem native_isset (j size set : Nat) :
    native.CPU_ISSET_S j size set = (decide (j < 8 * size) && set.testBit j) := by
  show (decide (j / 8 < size) && set.testBit j) = _
  have h : (j / 8 < size) ↔ (j < 8 * size) := by
    rw [Nat.div_lt_iff_lt_mul (by decide : 0 < 8), Nat.mul_comm]
  rw [decide_eq_decide.mpr h]

theorem mem_members (size set i : Nat) :
    i ∈ members size set ↔ i < 8 * size ∧ set.testBit i = true := by
  simp [members]

theorem members_eq_filter_isset (size set : Nat) :
    members size set =
      (List.range (8 * size)).filter (fun j => native.CPU_ISSET_S j size set) := by
  unfold members
  apply List.filter_congr
  intro j hj
  rw [native_isset]
  simp [List.mem_range.mp hj]

/-- On the native-mask platform, when every member of the stored set is below the
capacity `N`, one round of the walk meets exactly the members, in ascending order. -/
theorem seen_native (size set N : Nat) (hbelow : ∀ i ∈ members size set, i < N) :
    seen native size set 0 N = members size set := by
  rw [members_eq_filter_isset]
  unfold seen
  rw [← List.range_eq_range']
  apply filter_range_eq
  · intro j hj
    rw [native_isset] at hj
    simp only [Bool.and_eq_true, decide_eq_true_eq] at hj
    exact hbelow j ((mem_members size set j).mpr hj)
  · intro j hj
    rw [native_isset] at hj
    simp only [Bool.and_eq_true, decide_eq_true_eq] at hj
    exact hj.1

theorem native_single (m size set : Nat) (hm : m < 8 * size) :
    native.CPU_SET_S m size (native.CPU_ZERO_S size set) = single_cpu m := by
  show (if m / 8 < size then (0 : Nat) ||| (1 <<< m) else 0) = 2 ^ m
  have h : m / 8 < size := by
    rw [Nat.div_lt_iff_lt_mul (by decide : 0 < 8), Nat.mul_comm]; exact hm
  rw [if_pos h, Nat.zero_or, Nat.one_shiftLeft]

theorem filter_eq_range (m : Nat) :
    ∀ n : Nat, m < n → (List.range n).filter (fun i => decide (m = i)) = [m] := by
  intro n
  induction n with
  | zero => intro h; omega
  | succ n ih =>
    intro h
    rw [List.range_succ, List.filter_append]
    rcases Nat.lt_or_ge m n with hlt | hge
    · rw [ih hlt]
      have hne : ¬ m = n := by omega
      simp [List.filter_cons, hne]
    · have hmn : m = n := by omega
      subst hmn
      have hnil : (List.range m).filter (fun i => decide (m = i)) = [] := by
        rw [List.filter_eq_nil_iff]
        intro a ha
        have := List.mem_range.mp ha
        simp only [decide_eq_true_eq]
        omega
      rw [hnil]
      simp [List.filter_cons]

/-- The set `single_cpu m` has the one member `m`. -/
theorem members_single (size m : Nat) (hm : m < 8 * size) :
    members size (single_cpu m) = [m] := by
  unfold members single_cpu
  have h : (fun i => (2 ^ m).testBit i) = (fun i => decide (m = i)) := by
    funext i
    exact Nat.testBit_two_pow
  rw [h]
  exact filter_eq_range m (8 * size) hm

/-- The outcome of `set_working_cpu` on the native-mask platform: with `C ≥ 1`
members, all below `cpuset_ncpu`, and `k ≥ 0`, the call returns within
`(k + 1) * cpuset_ncpu` passes, having turned the stored set into the single member
number `k mod C` and requested that set. -/
theorem set_working_cpu_native (s : State) (set : Nat) (k : Int) (os : Nat → Nat → Int)
    (fuel m : Nat)
    (hset : s.cpuset = some set)
    (hbelow : ∀ i ∈ members s.cpuset_size set, (i : Int) < s.cpuset_ncpu)
    (hk : 0 ≤ k)
    (hm : (members s.cpuset_size set)[k.toNat % (members s.cpuset_size set).length]? = some m)
    (hfuel : (k.toNat + 1) * s.cpuset_ncpu.toNat ≤ fuel) :
    set_working_cpu native os fuel s k =
      some (.returned { s with cpuset := some (single_cpu m) }
        [{ cpu_size := s.cpuset_size, set := single_cpu m,
           ret := os s.cpuset_size (single_cpu m) }]) := by
  have hmem : m ∈ members s.cpuset_size set := List.getElem?_mem hm
  have hm8 : m < 8 * s.cpuset_size := ((mem_members _ _ _).mp hmem).1
  have hsize : ¬ s.cpuset_size = 0 := by omega
  have hpos : 0 < (members s.cpuset_size set).length := List.length_pos_of_mem hmem
  have hbelowN : ∀ i ∈ members s.cpuset_size set, i < s.cpuset_ncpu.toNat := by
    intro i hi
    have := hbelow i hi
    omega
  have hncpu : ((s.cpuset_ncpu.toNat : Nat) : Int) = s.cpuset_ncpu := by
    have := hbelow m hmem
    omega
  have hkk : ((k.toNat : Nat) : Int) = k := by omega
  have hseen := seen_native s.cpuset_size set s.cpuset_ncpu.toNat hbelowN
  have hw := walk_select native s.cpuset_size set s.cpuset_ncpu.toNat k.toNat fuel
    (by rw [hseen]; exact hpos) hfuel
  rw [hseen, hm, hncpu, hkk] at hw
  unfold set_working_cpu
  rw [if_neg hsize, hset]
  simp only [hw, native_single m s.cpuset_size set hm8]

/-! ## Claims about `set_working_cpu` -/

/-- C1: on the native-mask platform, for a state whose stored set has `C ≥ 1` members
(so `cpuset_size ≠ 0`), all below `cpuset_ncpu`, and a worker index `k ≥ 0`,
`set_working_cpu(k)` returns once it has `(k + 1) * cpuset_ncpu` passes of fuel, and
makes one `sched_setaffinity` request, whose set has the single member `m`, the
member number `k mod C` of the stored set in ascending order, counting from 0. -/
theorem set_working_cpu_requests_kth_member (s : State) (set : Nat) (k : Int)
    (os : Nat → Nat → Int) (fuel : Nat)
    (hset : s.cpuset = some set)
    (hC : 1 ≤ (members s.cpuset_size set).length)
    (hbelow : ∀ i ∈ members s.cpuset_size set, (i : Int) < s.cpuset_ncpu)
    (hk : 0 ≤ k)
    (hfuel : (k.toNat + 1) * s.cpuset_ncpu.toNat ≤ fuel) :
    ∃ m st,
      (members s.cpuset_size set)[k.toNat % (members s.cpuset_size set).length]? = some m ∧
      set_working_cpu native os fuel s k =
        some (.returned st [{ cpu_size := s.cpuset_size, set := single_cpu m,
                              ret := os s.cpuset_size (single_cpu m) }]) ∧
      members s.cpuset_size (single_cpu m) = [m] := by
  have hlt : k.toNat % (members s.cpuset_size set).length < (members s.cpuset_size set).length :=
    Nat.mod_lt _ hC
  obtain ⟨m, hm⟩ : ∃ m,
      (members s.cpuset_size set)[k.toNat % (members s.cpuset_size set).length]? = some m :=
    ⟨_, List.getElem?_eq_getElem hlt⟩
  have hm8 : m < 8 * s.cpuset_size := ((mem_members _ _ _).mp (List.getElem?_mem hm)).1
  exact ⟨m, _, hm, set_working_cpu_native s set k os fuel m hset hbelow hk hm hfuel,
    members_single s.cpuset_size m hm8⟩

set_option maxRecDepth 100000 in
/-- C1 at the sparse set {2, 5, 7} (mask 164) with `k = 3`: the hypotheses hold and
the conclusion follows. -/
theorem set_working_cpu_requests_kth_member_witness :
    (native_state 164).cpuset = some 164 ∧
    1 ≤ (members 128 164).length ∧
    (∀ i ∈ members 128 164, (i : Int) < 1024) ∧
    (0 : Int) ≤ 3 ∧
    ∃ m st,
      (members 128 164)[(3 : Int).toNat % (members 128 164).length]? = some m ∧
      set_working_cpu native setaffinity_ok 4096 (native_state 164) 3 =
        some (.returned st [{ cpu_size := 128, set := single_cpu m,
                              ret := setaffinity_ok 128 (single_cpu m) }]) ∧
      members 128 (single_cpu m) = [m] :=
  ⟨rfl, by decide, by decide, by decide,
    set_working_cpu_requests_kth_member (native_state 164) 164 3 setaffinity_ok 4096
      rfl (by decide) (by decide) (by decide) (by decide)⟩

set_option maxRecDepth 100000 in
/-- The sparse scenario of the specification: with the stored set {2, 5, 7}, the
worker indices 0, 1, 2, 3 request the CPUs 2, 5, 7, 2. -/
theorem sparse_set_requests :
    members 128 164 = [2, 5, 7] ∧
    set_working_cpu native setaffinity_ok 4096 (native_state 164) 0 =
      some (.returned (native_state 4) [{ cpu_size := 128, set := 4, ret := 0 }]) ∧
    set_working_cpu native setaffinity_ok 4096 (native_state 164) 1 =
      some (.returned (native_state 32) [{ cpu_size := 128, set := 32, ret := 0 }]) ∧
    set_working_cpu native setaffinity_ok 4096 (native_state 164) 2 =
      some (.returned (native_state 128) [{ cpu_size := 128, set := 128, ret := 0 }]) ∧
    set_working_cpu native setaffinity_ok 4096 (native_state 164) 3 =
      some (.returned (native_state 4) [{ cpu_size := 128, set := 4, ret := 0 }]) := by
  decide

set_option maxRecDepth 100000 in
/-- C2 fails on the code: from the state that `get_num_cpus` leaves for the affinity
mask {0, 1} (mask 3, count 2), the
calls `set_working_cpu(0)`, `set_working_cpu(1)` made one after another both request
CPU 0 (mask 1), because the first call leaves the stored set {0}; CPU 1 is never
requested. -/
theorem set_working_cpu_seq_repeats_first_cpu :
    get_num_cpus native (getaffinity_ok 3) 1 initial_state =
      some { ret := 2, state := native_state 3, queries := [(1024, 128)] } ∧
    members 128 3 = [0, 1] ∧
    set_working_cpu_seq native setaffinity_ok 4096 (native_state 3) [0, 1] =
      some (native_state 1,
        [{ cpu_size := 128, set := 1, ret := 0 }, { cpu_size := 128, set := 1, ret := 0 }]) := by
  decide

set_option maxRecDepth 100000 in
/-- C3 fails on the code: from the state that `get_num_cpus` leaves for the affinity
mask {0, 1} (mask 3, count 2), `set_working_cpu(0)` returns leaving the stored set {0} (mask 1): `cpuset_ncpu` and
`cpuset_size` are kept, the membership of `cpuset` is not. -/
theorem set_working_cpu_overwrites_cpuset :
    get_num_cpus native (getaffinity_ok 3) 1 initial_state =
      some { ret := 2, state := native_state 3, queries := [(1024, 128)] } ∧
    set_working_cpu native setaffinity_ok 4096 (native_state 3) 0 =
      some (.returned { cpuset := some 1, cpuset_ncpu := 1024, cpuset_size := 128 }
        [{ cpu_size := 128, set := 1, ret := 0 }]) ∧
    members 128 1 = [0] ∧ members 128 3 = [0, 1] := by
  decide

/-- C4: on the native-mask platform, for a state whose stored set has `C ≥ 1` members,
all below `cpuset_ncpu`, and `k ≥ 0`, the calls `set_working_cpu(k)` and
`set_working_cpu(k + C)`, each applied to that state, both return and request the
same single CPU `m`. -/
theorem set_working_cpu_wraps_at_count (s : State) (set : Nat) (k : Int)
    (os : Nat → Nat → Int) (fuel : Nat)
    (hset : s.cpuset = some set)
    (hC : 1 ≤ (members s.cpuset_size set).length)
    (hbelow : ∀ i ∈ members s.cpuset_size set, (i : Int) < s.cpuset_ncpu)
    (hk : 0 ≤ k)
    (hfuel : ((k + ((members s.cpuset_size set).length : Int)).toNat + 1) *
      s.cpuset_ncpu.toNat ≤ fuel) :
    ∃ m st,
      set_working_cpu native os fuel s k =
        some (.returned st [{ cpu_size := s.cpuset_size, set := single_cpu m,
                              ret := os s.cpuset_size (single_cpu m) }]) ∧
      set_working_cpu native os fuel s (k + ((members s.cpuset_size set).length : Int)) =
        some (.returned st [{ cpu_size := s.cpuset_size, set := single_cpu m,
                              ret := os s.cpuset_size (single_cpu m) }]) ∧
      members s.cpuset_size (single_cpu m) = [m] := by
  have hlt : k.toNat % (members s.cpuset_size set).length < (members s.cpuset_size set).length :=
    Nat.mod_lt _ hC
  obtain ⟨m, hm⟩ : ∃ m,
      (members s.cpuset_size set)[k.toNat % (members s.cpuset_size set).length]? = some m :=
    ⟨_, List.getElem?_eq_getElem hlt⟩
  have hm8 : m < 8 * s.cpuset_size := ((mem_members _ _ _).mp (List.getElem?_mem hm)).1
  have hsum : (k + ((members s.cpuset_size set).length : Int)).toNat =
      k.toNat + (members s.cpuset_size set).length := by omega
  have hm2 : (members s.cpuset_size set)[(k + ((members s.cpuset_size set).length : Int)).toNat %
      (members s.cpuset_size set).length]? = some m := by
    rw [hsum, Nat.add_mod_right]; exact hm
  have hfuel1 : (k.toNat + 1) * s.cpuset_ncpu.toNat ≤ fuel := by
    refine Nat.le_trans (Nat.mul_le_mul_right _ ?_) hfuel
    omega
  exact ⟨m, _, set_working_cpu_native s set k os fuel m hset hbelow hk hm hfuel1,
    set_working_cpu_native s set _ os fuel m hset hbelow (by omega) hm2 hfuel,
    members_single s.cpuset_size m hm8⟩

set_option maxRecDepth 100000 in
/-- C4 at the set {0, 1, 2, 3} (mask 15) with `k = 1`: `k = 1` and `k = 5` request the
same CPU. -/
theorem set_working_cpu_wraps_at_count_witness :
    (native_state 15).cpuset = some 15 ∧
    1 ≤ (members 128 15).length ∧
    (∀ i ∈ members 128 15, (i : Int) < 1024) ∧
    (0 : Int) ≤ 1 ∧
    ∃ m st,
      set_working_cpu native setaffinity_ok 8192 (native_state 15) 1 =
        some (.returned st [{ cpu_size := 128, set := single_cpu m,
                              ret := setaffinity_ok 128 (single_cpu m) }]) ∧
      set_working_cpu native setaffinity_ok 8192 (native_state 15)
          (1 + ((members 128 15).length : Int)) =
        some (.returned st [{ cpu_size := 128, set := single_cpu m,
                              ret := setaffinity_ok 128 (single_cpu m) }]) ∧
      members 128 (single_cpu m) = [m] :=
  ⟨rfl, by decide, by decide, by decide,
    set_working_cpu_wraps_at_count (native_state 15) 15 1 setaffinity_ok 8192
      rfl (by decide) (by decide) (by decide) (by decide)⟩

set_option maxRecDepth 100000 in
/-- The dense scenario of the specification: with the stored set {0, 1, 2, 3}, the
worker indices 0, 3, 4, 5 request the CPUs 0, 3, 0, 1. -/
theorem dense_set_requests :
    members 128 15 = [0, 1, 2, 3] ∧
    set_working_cpu native setaffinity_ok 4096 (native_state 15) 0 =
      some (.returned (native_state 1) [{ cpu_size := 128, set := 1, ret := 0 }]) ∧
    set_working_cpu native setaffinity_ok 4096 (native_state 15) 3 =
      some (.returned (native_state 8) [{ cpu_size := 128, set := 8, ret := 0 }]) ∧
    set_working_cpu native setaffinity_ok 4096 (native_state 15) 4 =
      some (.returned (native_state 1) [{ cpu_size := 128, set := 1, ret := 0 }]) ∧
    set_working_cpu native setaffinity_ok 4096 (native_state 15) 5 =
      some (.returned (native_state 2) [{ cpu_size := 128, set := 2, ret := 0 }]) := by
  decide

/-- C7: when `cpuset_size = 0`, `set_working_cpu(k)` returns at once for every integer
`k`, on either platform and without running the loop (no fuel is needed): it makes no
`sched_setaffinity` call and leaves the state as it was. -/
theorem set_working_cpu_noop_without_set (P : Platform) (os : Nat → Nat → Int) (fuel : Nat)
    (s : State) (k : Int) (hsize : s.cpuset_size = 0) :
    set_working_cpu P os fuel s k = some (.returned s []) := by
  unfold set_working_cpu
  rw [if_pos hsize]

/-- C7 at the state before any call, with a negative index and no fuel. -/
theorem set_working_cpu_noop_without_set_witness :
    initial_state.cpuset_size = 0 ∧
    set_working_cpu shim setaffinity_fails 0 initial_state (-5) =
      some (.returned initial_state []) :=
  ⟨rfl, set_working_cpu_noop_without_set shim setaffinity_fails 0 initial_state (-5) rfl⟩

/-- C10: on the native-mask platform, for a state whose stored set has `C ≥ 1`
members, all below `cpuset_ncpu`, and `k ≥ 0`, two runs of `set_working_cpu(k)` in
which `sched_setaffinity` returns different values both return, leave the same state
and make the same request; only the value the operating system returned differs. -/
theorem set_working_cpu_ignores_setaffinity_result (s : State) (set : Nat) (k : Int)
    (os1 os2 : Nat → Nat → Int) (fuel : Nat)
    (hset : s.cpuset = some set)
    (hC : 1 ≤ (members s.cpuset_size set).length)
    (hbelow : ∀ i ∈ members s.cpuset_size set, (i : Int) < s.cpuset_ncpu)
    (hk : 0 ≤ k)
    (hfuel : (k.toNat + 1) * s.cpuset_ncpu.toNat ≤ fuel) :
    ∃ st req,
      set_working_cpu native os1 fuel s k =
        some (.returned st [{ cpu_size := s.cpuset_size, set := req,
                              ret := os1 s.cpuset_size req }]) ∧
      set_working_cpu native os2 fuel s k =
        some (.returned st [{ cpu_size := s.cpuset_size, set := req,
                              ret := os2 s.cpuset_size req }]) := by
  have hlt : k.toNat % (members s.cpuset_size set).length < (members s.cpuset_size set).length :=
    Nat.mod_lt _ hC
  obtain ⟨m, hm⟩ : ∃ m,
      (members s.cpuset_size set)[k.toNat % (members s.cpuset_size set).length]? = some m :=
    ⟨_, List.getElem?_eq_getElem hlt⟩
  exact ⟨_, single_cpu m, set_working_cpu_native s set k os1 fuel m hset hbelow hk hm hfuel,
    set_working_cpu_native s set k os2 fuel m hset hbelow hk hm hfuel⟩

set_option maxRecDepth 100000 in
/-- C10 at the set {2, 5, 7} with `k = 1`, for an operating system that accepts the
request and one that rejects it. -/
theorem set_working_cpu_ignores_setaffinity_result_witness :
    (native_state 164).cpuset = some 164 ∧
    1 ≤ (members 128 164).length ∧
    (∀ i ∈ members 128 164, (i : Int) < 1024) ∧
    (0 : Int) ≤ 1 ∧
    ∃ st req,
      set_working_cpu native setaffinity_ok 2048 (native_state 164) 1 =
        some (.returned st [{ cpu_size := 128, set := req,
                              ret := setaffinity_ok 128 req }]) ∧
      set_working_cpu native setaffinity_fails 2048 (native_state 164) 1 =
        some (.returned st [{ cpu_size := 128, set := req,
                              ret := setaffinity_fails 128 req }]) :=
  ⟨rfl, by decide, by decide, by decide,
    set_working_cpu_ignores_setaffinity_result (native_state 164) 164 1 setaffinity_ok
      setaffinity_fails 2048 rfl (by decide) (by decide) (by decide) (by decide)⟩

/-! ## The retry loop of `get_num_cpus` -/

theorem loop_success (P : Platform) (query : Nat → Nat → AffinityReply) (fuel j : Nat)
    (done : List (Int × Nat)) (h : (reply P query j).ret = 0) :
    get_num_cpus_loop P query (fuel + 1) j (capacity j) done =
      some { ret := P.CPU_COUNT_S (P.CPU_ALLOC_SIZE (capacity j)) (reply P query j).set,
             state := { cpuset := some (reply P query j).set, cpuset_ncpu := capacity j,
                        cpuset_size := P.CPU_ALLOC_SIZE (capacity j) },
             queries := done ++ [(capacity j, P.CPU_ALLOC_SIZE (capacity j))] } := by
  unfold reply at h
  simp [get_num_cpus_loop, reply, h]

theorem loop_failure (P : Platform) (query : Nat → Nat → AffinityReply) (fuel j : Nat)
    (done : List (Int × Nat)) (h : (reply P query j).ret ≠ 0)
    (he : (reply P query j).errno ≠ EINVAL) :
    get_num_cpus_loop P query (fuel + 1) j (capacity j) done =
      some { ret := 1,
             state := { cpuset := none, cpuset_ncpu := 0, cpuset_size := 0 },
             queries := done ++ [(capacity j, P.CPU_ALLOC_SIZE (capacity j))] } := by
  unfold reply at h he
  simp [get_num_cpus_loop, h, he]

theorem loop_retry_one (P : Platform) (query : Nat → Nat → AffinityReply) (fuel j : Nat)
    (done : List (Int × Nat)) (h : (reply P query j).ret ≠ 0)
    (he : (reply P query j).errno = EINVAL) :
    get_num_cpus_loop P query (fuel + 1) j (capacity j) done =
      get_num_cpus_loop P query fuel (j + 1) (capacity (j + 1))
        (done ++ [(capacity j, P.CPU_ALLOC_SIZE (capacity j))]) := by
  unfold reply at h he
  simp [get_num_cpus_loop, h, he, capacity]

/-- While the calls fail with `EINVAL`, the loop goes on to the next capacity. -/
theorem loop_retry (P : Platform) (query : Nat → Nat → AffinityReply) :
    ∀ (n j fuel : Nat) (done : List (Int × Nat)),
      (∀ i, i < n → (reply P query (j + i)).ret ≠ 0 ∧ (reply P query (j + i)).errno = EINVAL) →
      get_num_cpus_loop P query (fuel + n) j (capacity j) done =
        get_num_cpus_loop P query fuel (j + n) (capacity (j + n)) (done ++ attempts P j n) := by
  intro n
  induction n with
  | zero => intro j fuel done _; simp [attempts]
  | succ n ih =>
    intro j fuel done h
    have h0 := h 0 (Nat.succ_pos n)
    rw [Nat.add_zero] at h0
    rw [← Nat.add_assoc, loop_retry_one P query (fuel + n) j done h0.1 h0.2]
    have hs : ∀ i, i < n → (reply P query (j + 1 + i)).ret ≠ 0 ∧
        (reply P query (j + 1 + i)).errno = EINVAL := by
      intro i hi
      have := h (i + 1) (Nat.succ_lt_succ hi)
      rwa [Nat.add_assoc, Nat.add_comm 1 i]
    rw [ih (j + 1) fuel _ hs]
    have e : j + 1 + n = j + (n + 1) := by omega
    rw [e]
    simp [attempts, List.range'_succ]

theorem attempts_zero (P : Platform) (n : Nat) :
    [] ++ attempts P 0 n ++ [(capacity (0 + n), P.CPU_ALLOC_SIZE (capacity (0 + n)))] =
      (List.range (n + 1)).map (fun j => (capacity j, P.CPU_ALLOC_SIZE (capacity j))) := by
  simp [attempts, List.range_succ, List.range_eq_range']

/-- What the loop can return: 1 with no stored set, or the count of the stored set. -/
theorem loop_result (P : Platform) (query : Nat → Nat → AffinityReply) :
    ∀ (fuel j : Nat) (ncpu : Int) (done : List (Int × Nat)) (d : Discovery),
      get_num_cpus_loop P query fuel j ncpu done = some d →
      (d.ret = 1 ∧ d.state.cpuset = none) ∨
      (∃ set, d.state.cpuset = some set ∧ d.ret = P.CPU_COUNT_S d.state.cpuset_size set) := by
  intro fuel
  induction fuel with
  | zero => intro j ncpu done d h; simp [get_num_cpus_loop] at h
  | succ fuel ih =>
    intro j ncpu done d h
    unfold get_num_cpus_loop at h
    simp only at h
    split at h
    · right
      simp only [Option.some.injEq] at h
      subst h
      exact ⟨_, rfl, rfl⟩
    · split at h
      · exact ih _ _ _ d h
      · left
        simp only [Option.some.injEq] at h
        subst h
        exact ⟨rfl, rfl⟩

theorem capacity_small : ∀ j : Nat, j ≤ 20 → capacity j = ((1024 * 2 ^ j : Nat) : Int) := by
  intro j
  induction j with
  | zero => intro _; rfl
  | succ j ih =>
    intro h
    have hp : 2 ^ (j + 1) ≤ 2 ^ 20 := Nat.pow_le_pow_right (by decide) h
    have hs : 2 ^ (j + 1) = 2 ^ j * 2 := pow_succ 2 j
    show wrap_int (capacity j * 2) = _
    rw [ih (by omega)]
    unfold wrap_int
    omega

theorem native_alloc_small (j : Nat) (h : j ≤ 20) :
    native.CPU_ALLOC_SIZE (capacity j) = 128 * 2 ^ j := by
  have hp : 2 ^ j ≤ 2 ^ 20 := Nat.pow_le_pow_right (by decide) h
  rw [capacity_small j h]
  show ((((1024 * 2 ^ j : Nat) : Int) % 18446744073709551616).toNat + 63) %
    18446744073709551616 / 64 * 8 = 128 * 2 ^ j
  omega

/-! ## Claims about `get_num_cpus` -/

/-- C6: on either platform and from any state, when the first `n` queries fail with
`EINVAL` and the next one fails with another error, `get_num_cpus` returns (with
`n + 1` passes of fuel) the value 1 and leaves `cpuset` null, `cpuset_ncpu = 0` and
`cpuset_size = 0`, having made `n + 1` queries. -/
theorem get_num_cpus_degrades (P : Platform) (query : Nat → Nat → AffinityReply)
    (n fuel : Nat) (before : State)
    (hretry : ∀ j, j < n → (reply P query j).ret ≠ 0 ∧ (reply P query j).errno = EINVAL)
    (hfail : (reply P query n).ret ≠ 0 ∧ (reply P query n).errno ≠ EINVAL)
    (hfuel : n + 1 ≤ fuel) :
    get_num_cpus P query fuel before =
      some { ret := 1,
             state := { cpuset := none, cpuset_ncpu := 0, cpuset_size := 0 },
             queries := (List.range (n + 1)).map
               (fun j => (capacity j, P.CPU_ALLOC_SIZE (capacity j))) } := by
  obtain ⟨extra, he⟩ := Nat.exists_eq_add_of_le hfuel
  have hr : ∀ i, i < n → (reply P query (0 + i)).ret ≠ 0 ∧
      (reply P query (0 + i)).errno = EINVAL := by
    intro i hi
    rw [Nat.zero_add]
    exact hretry i hi
  have hf : (reply P query (0 + n)).ret ≠ 0 ∧ (reply P query (0 + n)).errno ≠ EINVAL := by
    rw [Nat.zero_add]
    exact hfail
  have e : fuel = (extra + 1) + n := by omega
  unfold get_num_cpus
  rw [e]
  have hl := loop_retry P query n 0 (extra + 1) [] hr
  rw [show capacity 0 = 1024 from rfl] at hl
  rw [hl, loop_failure P query extra (0 + n) _ hf.1 hf.2, attempts_zero]

/-- C6 on the native-mask platform, from a state that holds a set: two `EINVAL`
failures, then a failure with errno 14. -/
theorem get_num_cpus_degrades_witness :
    (∀ j, j < 2 → (reply native (getaffinity_fails_after 2 14) j).ret ≠ 0 ∧
      (reply native (getaffinity_fails_after 2 14) j).errno = EINVAL) ∧
    ((reply native (getaffinity_fails_after 2 14) 2).ret ≠ 0 ∧
      (reply native (getaffinity_fails_after 2 14) 2).errno ≠ EINVAL) ∧
    get_num_cpus native (getaffinity_fails_after 2 14) 3 (native_state 164) =
      some { ret := 1,
             state := { cpuset := none, cpuset_ncpu := 0, cpuset_size := 0 },
             queries := (List.range (2 + 1)).map
               (fun j => (capacity j, native.CPU_ALLOC_SIZE (capacity j))) } :=
  ⟨by decide, by decide,
    get_num_cpus_degrades native (getaffinity_fails_after 2 14) 2 3 (native_state 164)
      (by decide) (by decide) (by decide)⟩

/-- C8: on the native-mask platform, let the affinity query depend on the size of the
set only, fail with `EINVAL` whenever the set has fewer than `T` bits and succeed
whenever it has at least `T`, with `T ≤ 2 ^ 30`, and let `1024 * 2 ^ J` be the first
capacity of the doubling sequence that is `≥ T`. Then `get_num_cpus` returns (with
`J + 1` passes of fuel), its queries are made at the capacities `1024 * 2 ^ j` for
`j = 0, ..., J` in that order (with `128 * 2 ^ j` bytes), it returns the number of
members of the mask returned at the last one, and it leaves `cpuset_ncpu` equal to
that capacity and `cpuset_size` to its allocation size. -/
theorem get_num_cpus_doubles_to_threshold (os : Nat → AffinityReply) (T J fuel : Nat)
    (before : State)
    (hlow : ∀ size, 8 * size < T → (os size).ret ≠ 0 ∧ (os size).errno = EINVAL)
    (hhigh : ∀ size, T ≤ 8 * size → (os size).ret = 0)
    (hT : T ≤ 2 ^ 30)
    (hJ : T ≤ 1024 * 2 ^ J)
    (hfirst : ∀ j, j < J → 1024 * 2 ^ j < T)
    (hfuel : J + 1 ≤ fuel) :
    get_num_cpus native (fun _ size => os size) fuel before =
      some { ret := ((members (128 * 2 ^ J) (os (128 * 2 ^ J)).set).length : Int),
             state := { cpuset := some (os (128 * 2 ^ J)).set,
                        cpuset_ncpu := ((1024 * 2 ^ J : Nat) : Int),
                        cpuset_size := 128 * 2 ^ J },
             queries := (List.range (J + 1)).map
               (fun j => (((1024 * 2 ^ j : Nat) : Int), 128 * 2 ^ j)) } ∧
    native.CPU_ALLOC_SIZE ((1024 * 2 ^ J : Nat) : Int) = 128 * 2 ^ J := by
  have hJ20 : J ≤ 20 := by
    by_contra hc
    have h20 := hfirst 20 (by omega)
    have e : (1024 : Nat) * 2 ^ 20 = 2 ^ 30 := by decide
    omega
  have hrep : ∀ j, j ≤ J → reply native (fun _ size => os size) j = os (128 * 2 ^ j) := by
    intro j hj
    show os (native.CPU_ALLOC_SIZE (capacity j)) = _
    rw [native_alloc_small j (by omega)]
  have hr : ∀ i, i < J → (reply native (fun _ size => os size) (0 + i)).ret ≠ 0 ∧
      (reply native (fun _ size => os size) (0 + i)).errno = EINVAL := by
    intro i hi
    rw [Nat.zero_add, hrep i (by omega)]
    apply hlow
    have := hfirst i hi
    omega
  have hs : (reply native (fun _ size => os size) (0 + J)).ret = 0 := by
    rw [Nat.zero_add, hrep J (Nat.le_refl J)]
    apply hhigh
    omega
  obtain ⟨extra, he⟩ := Nat.exists_eq_add_of_le hfuel
  have e : fuel = (extra + 1) + J := by omega
  have hmap : (List.range (J + 1)).map
      (fun j => (capacity j, native.CPU_ALLOC_SIZE (capacity j))) =
      (List.range (J + 1)).map (fun j => (((1024 * 2 ^ j : Nat) : Int), 128 * 2 ^ j)) := by
    apply List.map_congr_left
    intro j hj
    have hj20 : j ≤ 20 := by
      have := List.mem_range.mp hj
      omega
    rw [native_alloc_small j hj20, capacity_small j hj20]
  constructor
  · unfold get_num_cpus
    rw [e]
    have hl := loop_retry native (fun _ size => os size) J 0 (extra + 1) [] hr
    rw [show capacity 0 = 1024 from rfl] at hl
    rw [hl, loop_success native (fun _ size => os size) extra (0 + J) _ hs, attempts_zero, hmap]
    rw [Nat.zero_add, hrep J (Nat.le_refl J), native_alloc_small J hJ20, capacity_small J hJ20]
    rfl
  · rw [← capacity_small J hJ20]
    exact native_alloc_small J hJ20

set_option maxRecDepth 100000 in
/-- C8 at the threshold `T = 3000`: the capacities 1024, 2048 and 4096 are queried and
the mask of {2, 5, 7} returned at 4096 gives the count 3. -/
theorem get_num_cpus_doubles_to_threshold_witness :
    (3000 : Nat) ≤ 2 ^ 30 ∧ 3000 ≤ 1024 * 2 ^ 2 ∧ (∀ j, j < 2 → 1024 * 2 ^ j < 3000) ∧
    (get_num_cpus native (fun _ size => getaffinity_threshold 3000 164 size) 3 initial_state =
      some { ret := ((members (128 * 2 ^ 2) (getaffinity_threshold 3000 164 (128 * 2 ^ 2)).set).length : Int),
             state := { cpuset := some (getaffinity_threshold 3000 164 (128 * 2 ^ 2)).set,
                        cpuset_ncpu := ((1024 * 2 ^ 2 : Nat) : Int),
                        cpuset_size := 128 * 2 ^ 2 },
             queries := (List.range (2 + 1)).map
               (fun j => (((1024 * 2 ^ j : Nat) : Int), 128 * 2 ^ j)) } ∧
      native.CPU_ALLOC_SIZE ((1024 * 2 ^ 2 : Nat) : Int) = 128 * 2 ^ 2) :=
  ⟨by decide, by decide, by decide,
    get_num_cpus_doubles_to_threshold (getaffinity_threshold 3000 164) 3000 2 3 initial_state
      (by intro size h; simp [getaffinity_threshold, h])
      (by intro size h; have hn : ¬ 8 * size < 3000 := by omega
          simp [getaffinity_threshold, hn])
      (by decide) (by decide) (by decide) (by decide)⟩

/-- C9 fails on the code: on the placement-hint platform, for a host whose hardware
query reports 2 cores, `get_num_cpus` returns 3, the value of the mask with bits 0
and 1, and not the count 2. -/
theorem shim_get_num_cpus_returns_mask_value :
    get_num_cpus shim
        (Shim.query (fun _ => { ret := 0, core_count := 2, errno := 0 }) (fun _ => 0))
        1 initial_state =
      some { ret := 3,
             state := { cpuset := some 3, cpuset_ncpu := 1024, cpuset_size := 4 },
             queries := [(1024, 4)] } := by
  decide

/-- C5 fails on the code: on the placement-hint platform, for a host whose hardware
query reports 32 cores, `sched_getaffinity` succeeds with all 32 bits of the word set
and `get_num_cpus` returns that word converted to `int`, which is `-1` and not
`≥ 1`. -/
theorem shim_get_num_cpus_returns_negative :
    get_num_cpus shim (shim_host 32) 1 initial_state =
      some { ret := -1,
             state := { cpuset := some 4294967295, cpuset_ncpu := 1024, cpuset_size := 4 },
             queries := [(1024, 4)] } ∧
    ¬ ((1 : Int) ≤ -1) := by
  decide

/-- C12 fails on the code: on the placement-hint platform, for a host whose hardware
query reports 11 cores, `get_num_cpus` succeeds without a retry, leaves the capacity
`cpuset_ncpu = 1024` and returns 2047, which is more than that capacity. -/
theorem shim_get_num_cpus_exceeds_capacity :
    get_num_cpus shim (shim_host 11) 1 initial_state =
      some { ret := 2047,
             state := { cpuset := some 2047, cpuset_ncpu := 1024, cpuset_size := 4 },
             queries := [(1024, 4)] } ∧
    ¬ ((1024 : Int) ≥ 2047) := by
  decide

/-! ## Repeated discovery -/

/-- C11: for an affinity query whose reply depends on the size of the set only,
`get_num_cpus` gives the same result (value returned, state left, queries made, or no
return within the fuel) from every starting state, on either platform; and when it
returns from some state, calling it again from the state it left gives the same
value and leaves the same state. -/
theorem get_num_cpus_idempotent (P : Platform) (os : Nat → AffinityReply) (fuel : Nat)
    (s1 s2 : State) :
    get_num_cpus P (fun _ size => os size) fuel s1 =
      get_num_cpus P (fun _ size => os size) fuel s2 ∧
    ∀ d, get_num_cpus P (fun _ size => os size) fuel s1 = some d →
      get_num_cpus P (fun _ size => os size) fuel d.state = some d := by
  constructor
  · rfl
  · intro d h
    exact h

set_option maxRecDepth 100000 in
/-- C11 at a query that needs one retry: from the state before any call and from a
state that holds another set, `get_num_cpus` returns 3 and leaves the same state,
and so does a second call. -/
theorem get_num_cpus_idempotent_witness :
    get_num_cpus native (fun _ size => getaffinity_threshold 2000 164 size) 2 initial_state =
      some { ret := 3,
             state := { cpuset := some 164, cpuset_ncpu := 2048, cpuset_size := 256 },
             queries := [(1024, 128), (2048, 256)] } ∧
    get_num_cpus native (fun _ size => getaffinity_threshold 2000 164 size) 2 initial_state =
      get_num_cpus native (fun _ size => getaffinity_threshold 2000 164 size) 2
        (native_state 15) ∧
    get_num_cpus native (fun _ size => getaffinity_threshold 2000 164 size) 2
        { cpuset := some 164, cpuset_ncpu := 2048, cpuset_size := 256 } =
      some { ret := 3,
             state := { cpuset := some 164, cpuset_ncpu := 2048, cpuset_size := 256 },
             queries := [(1024, 128), (2048, 256)] } :=
  have h0 : get_num_cpus native (fun _ size => getaffinity_threshold 2000 164 size) 2
      initial_state =
      some { ret := 3,
             state := { cpuset := some 164, cpuset_ncpu := 2048, cpuset_size := 256 },
             queries := [(1024, 128), (2048, 256)] } := by decide
  ⟨h0,
    (get_num_cpus_idempotent native (getaffinity_threshold 2000 164) 2 initial_state
      (native_state 15)).1,
    (get_num_cpus_idempotent native (getaffinity_threshold 2000 164) 2 initial_state
      (native_state 15)).2 _ h0⟩

/-! ## The capacity after discovery -/

theorem members_length_le (size set : Nat) : (members size set).length ≤ 8 * size := by
  unfold members
  have h := List.length_filter_le (fun i => set.testBit i) (List.range (8 * size))
  rwa [List.length_range] at h

/-- The capacity after discovery: on either platform, when `get_num_cpus` succeeds
after `j ≤ 20` `EINVAL` retries, it returns (with `j + 1` passes of fuel) leaving
`cpuset_ncpu = 1024 * 2 ^ j`, the power of two `2 ^ (10 + j)`; and on the native-mask
platform the value returned is at most that capacity. -/
theorem get_num_cpus_capacity_power_of_two (P : Platform)
    (query : Nat → Nat → AffinityReply) (j fuel : Nat) (before : State)
    (hretry : ∀ i, i < j → (reply P query i).ret ≠ 0 ∧ (reply P query i).errno = EINVAL)
    (hok : (reply P query j).ret = 0)
    (hj : j ≤ 20)
    (hfuel : j + 1 ≤ fuel) :
    ∃ d, get_num_cpus P query fuel before = some d ∧
      d.state.cpuset_ncpu = ((1024 * 2 ^ j : Nat) : Int) ∧
      d.state.cpuset_ncpu = ((2 ^ (10 + j) : Nat) : Int) ∧
      (P = native → d.ret ≤ d.state.cpuset_ncpu) := by
  obtain ⟨extra, he⟩ := Nat.exists_eq_add_of_le hfuel
  have hr : ∀ i, i < j → (reply P query (0 + i)).ret ≠ 0 ∧
      (reply P query (0 + i)).errno = EINVAL := by
    intro i hi
    rw [Nat.zero_add]
    exact hretry i hi
  have hs : (reply P query (0 + j)).ret = 0 := by
    rw [Nat.zero_add]
    exact hok
  have e : fuel = (extra + 1) + j := by omega
  have hl := loop_retry P query j 0 (extra + 1) [] hr
  rw [show capacity 0 = 1024 from rfl] at hl
  have hpow : (2 : Nat) ^ (10 + j) = 1024 * 2 ^ j := by
    rw [Nat.pow_add]
  have hget : get_num_cpus P query fuel before =
      some { ret := P.CPU_COUNT_S (P.CPU_ALLOC_SIZE (capacity (0 + j)))
                      (reply P query (0 + j)).set,
             state := { cpuset := some (reply P query (0 + j)).set,
                        cpuset_ncpu := capacity (0 + j),
                        cpuset_size := P.CPU_ALLOC_SIZE (capacity (0 + j)) },
             queries := [] ++ attempts P 0 j ++
               [(capacity (0 + j), P.CPU_ALLOC_SIZE (capacity (0 + j)))] } := by
    unfold get_num_cpus
    rw [e, hl, loop_success P query extra (0 + j) _ hs]
  refine ⟨_, hget, ?_, ?_, ?_⟩
  · show capacity (0 + j) = _
    rw [Nat.zero_add, capacity_small j hj]
  · show capacity (0 + j) = _
    rw [Nat.zero_add, capacity_small j hj, hpow]
  · intro hP
    subst hP
    show ((members (native.CPU_ALLOC_SIZE (capacity (0 + j)))
      (reply native query (0 + j)).set).length : Int) ≤ capacity (0 + j)
    rw [Nat.zero_add, native_alloc_small j hj, capacity_small j hj]
    have h := members_length_le (128 * 2 ^ j) (reply native query j).set
    omega

set_option maxRecDepth 100000 in
/-- The capacity after discovery on the native-mask platform with two retries: it
is 4096. -/
theorem get_num_cpus_capacity_power_of_two_witness :
    (∀ i, i < 2 → (reply native (getaffinity_ok_after 2 164) i).ret ≠ 0 ∧
      (reply native (getaffinity_ok_after 2 164) i).errno = EINVAL) ∧
    (reply native (getaffinity_ok_after 2 164) 2).ret = 0 ∧
    ∃ d, get_num_cpus native (getaffinity_ok_after 2 164) 3 initial_state = some d ∧
      d.state.cpuset_ncpu = ((1024 * 2 ^ 2 : Nat) : Int) ∧
      d.state.cpuset_ncpu = ((2 ^ (10 + 2) : Nat) : Int) ∧
      (native = native → d.ret ≤ d.state.cpuset_ncpu) :=
  ⟨by decide, by decide,
    get_num_cpus_capacity_power_of_two native (getaffinity_ok_after 2 164) 2 3 initial_state
      (by decide) (by decide) (by decide) (by decide)⟩

/-! ## The placement-hint primitives -/

theorem shim_mask_fold :
    ∀ N, N < 32 →
      (List.range N).foldl (fun count i => count ||| Shim.shl1 i) 0 = 2 ^ N - 1 := by
  decide

theorem shim_isset_mask_low :
    ∀ N, N < 32 → ∀ i, i < 32 →
      (((2 ^ N - 1) &&& Shim.shl1 i) != 0) = decide (i < N) := by
  decide

theorem shim_isset_mask (N i size : Nat) (hN : N ≤ 31) (hi : i < 32) :
    shim.CPU_ISSET_S i size (2 ^ N - 1) = decide (i < N) :=
  shim_isset_mask_low N (by omega) i hi

theorem shim_isset_single_low :
    ∀ i, i < 31 → ∀ j, j < 32 → (((2 ^ i) &&& Shim.shl1 j) != 0) = decide (j = i) := by
  decide

theorem shim_isset_single (i j size : Nat) (hi : i ≤ 30) (hj : j < 32) :
    Shim.CPU_ISSET_S j size (2 ^ i) = decide (j = i) :=
  shim_isset_single_low i (by omega) j hj

theorem shim_set_single_low : ∀ i, i < 31 → (0 ||| Shim.shl1 i) = 2 ^ i := by
  decide

theorem shim_scan_single_low :
    ∀ i, i < 31 → Shim.sched_setaffinity 4 (2 ^ i) = { core := i, ret := 0 } := by
  decide

/-- On the placement-hint platform a host of `N ≤ 31` cores makes `get_num_cpus`
leave the state `shim_state N`. -/
theorem shim_get_num_cpus (N : Nat) (hN : N ≤ 31) (before : State) :
    get_num_cpus shim (shim_host N) 1 before =
      some { ret := wrap_int (2 ^ N - 1 : Nat), state := shim_state N,
             queries := [(1024, 4)] } := by
  have hf := shim_mask_fold N (by omega)
  simp only [get_num_cpus, get_num_cpus_loop, shim_host, Shim.query, Shim.sched_getaffinity,
    Int.toNat_ofNat, hf]
  rfl

/-- On the placement-hint platform, from the state left for a host of `N ≤ 31` cores,
the walk with a counter `k < N` enters the `if` at index `k` after `k + 1` passes. -/
theorem shim_walk (N k fuel : Nat) (hN : N ≤ 31) (hk : k < N) (hfuel : k + 1 ≤ fuel) :
    walk shim 4 (2 ^ N - 1) 1024 fuel { i := 0, thread := (k : Int) } = some k := by
  obtain ⟨extra, he⟩ := Nat.exists_eq_add_of_le hfuel
  have e : fuel = extra + (k + 1) := by omega
  have hseen : seen shim 4 (2 ^ N - 1) 0 (k + 1) = List.range' 0 (k + 1) := by
    unfold seen
    rw [List.filter_eq_self]
    intro a ha
    have hlt : a < k + 1 := by
      have := (List.mem_range'_1.mp ha).2
      omega
    rw [shim_isset_mask N a 4 hN (by omega)]
    simp only [decide_eq_true_eq]
    omega
  have h := walk_pass shim 4 (2 ^ N - 1) 1024 (k + 1) 0 k extra (by decide) (by omega)
  rw [hseen] at h
  have hlen : k < (List.range' 0 (k + 1)).length := by
    rw [List.length_range']; omega
  rw [if_pos hlen, List.getElem?_range' 0 1 (Nat.lt_succ_self k)] at h
  rw [e]
  simpa using h

/-- C13: on the placement-hint platform, when the hardware query succeeds and reports
`N` cores with `0 ≤ N ≤ 31`, the replacement `sched_getaffinity` returns 0 and leaves
the mask `2 ^ N - 1`, whose members among the 32 bits of the word are exactly the
indices below `N`, whatever the set held before; and a failed hardware query makes it
return `-1`, leaving the set as it was. -/
theorem shim_sched_getaffinity_first_cores (N : Nat) (sys : SysctlReply) (cpu_size old : Nat)
    (hN : N ≤ 31) (hcount : sys.core_count = (N : Int)) (hok : sys.ret = 0) :
    (Shim.sched_getaffinity sys cpu_size old).ret = 0 ∧
    (Shim.sched_getaffinity sys cpu_size old).set = 2 ^ N - 1 ∧
    (∀ i, i < 32 →
      Shim.CPU_ISSET_S i cpu_size (Shim.sched_getaffinity sys cpu_size old).set =
        decide (i < N)) ∧
    (∀ bad : SysctlReply, bad.ret ≠ 0 →
      (Shim.sched_getaffinity bad cpu_size old).ret = -1 ∧
      (Shim.sched_getaffinity bad cpu_size old).set = old) := by
  have hf := shim_mask_fold N (by omega)
  have hset : (Shim.sched_getaffinity sys cpu_size old).set = 2 ^ N - 1 := by
    simp only [Shim.sched_getaffinity, hok, hcount, Int.toNat_ofNat, hf]
    rfl
  refine ⟨?_, hset, ?_, ?_⟩
  · simp [Shim.sched_getaffinity, hok]
  · intro i hi
    rw [hset]
    exact shim_isset_mask N i cpu_size hN hi
  · intro bad hbad
    simp [Shim.sched_getaffinity, hbad]

/-- C13 for a host of 4 cores and a set that held the mask 164 before: the set left
is the mask 15. -/
theorem shim_sched_getaffinity_first_cores_witness :
    (4 : Nat) ≤ 31 ∧
    (Shim.sched_getaffinity { ret := 0, core_count := 4, errno := 0 } 4 164).ret = 0 ∧
    (Shim.sched_getaffinity { ret := 0, core_count := 4, errno := 0 } 4 164).set = 2 ^ 4 - 1 ∧
    (∀ i, i < 32 →
      Shim.CPU_ISSET_S i 4
          (Shim.sched_getaffinity { ret := 0, core_count := 4, errno := 0 } 4 164).set =
        decide (i < 4)) ∧
    (∀ bad : SysctlReply, bad.ret ≠ 0 →
      (Shim.sched_getaffinity bad 4 164).ret = -1 ∧
      (Shim.sched_getaffinity bad 4 164).set = 164) :=
  ⟨by decide,
    shim_sched_getaffinity_first_cores 4 { ret := 0, core_count := 4, errno := 0 } 4 164
      (by decide) rfl rfl⟩

/-- C14: on the placement-hint platform, for `i ≤ 30` the set built by `CPU_ZERO_S`
and `CPU_SET_S(i)` is the word `2 ^ i`, whose only member among the 32 bits of the
word is `i`, and the replacement
`sched_setaffinity` with `cpu_size = 4` requests the placement policy for core `i`
and returns 0. For a host of `N ≤ 31` cores `get_num_cpus` leaves the mask
`2 ^ N - 1`, and from that state `set_working_cpu(k)` with `k < N` returns after
`k + 1` passes having made the one request with the set `2 ^ k`, that is with
core `k`. -/
theorem shim_set_working_cpu_places_on_core (i k N old fuel : Nat) (before : State)
    (hi : i ≤ 30) (hN : N ≤ 31) (hk : k < N) (hfuel : k + 1 ≤ fuel) :
    shim.CPU_SET_S i 4 (shim.CPU_ZERO_S 4 old) = 2 ^ i ∧
    (∀ j, j < 32 → Shim.CPU_ISSET_S j 4 (2 ^ i) = decide (j = i)) ∧
    Shim.sched_setaffinity 4 (2 ^ i) = { core := i, ret := 0 } ∧
    Option.map Discovery.state (get_num_cpus shim (shim_host N) 1 before) =
      some (shim_state N) ∧
    set_working_cpu shim shim_setaffinity fuel (shim_state N) (k : Int) =
      some (.returned { cpuset := some (2 ^ k), cpuset_ncpu := 1024, cpuset_size := 4 }
        [{ cpu_size := 4, set := 2 ^ k, ret := 0 }]) ∧
    (Shim.sched_setaffinity 4 (2 ^ k)).core = k := by
  have hk30 : k < 31 := by omega
  refine ⟨shim_set_single_low i (by omega), fun j hj => shim_isset_single i j 4 hi hj,
    shim_scan_single_low i (by omega), ?_, ?_, ?_⟩
  · rw [shim_get_num_cpus N hN before]
    rfl
  · have hw := shim_walk N k fuel hN hk hfuel
    have hs : shim.CPU_SET_S k 4 (shim.CPU_ZERO_S 4 (2 ^ N - 1)) = 2 ^ k :=
      shim_set_single_low k hk30
    have hs1 : shim.CPU_SET_S k (shim_state N).cpuset_size
        (shim.CPU_ZERO_S (shim_state N).cpuset_size (2 ^ N - 1)) = 2 ^ k := hs
    have hsize : ¬ (shim_state N).cpuset_size = 0 := by
      show ¬ (4 : Nat) = 0
      decide
    unfold set_working_cpu
    rw [if_neg hsize]
    show (match walk shim 4 (2 ^ N - 1) 1024 fuel { i := 0, thread := (k : Int) } with
      | none => none
      | some i => _) = _
    rw [hw]
    simp only [hs1]
    rfl
  · rw [shim_scan_single_low k hk30]

/-- C14 with `i = 30`, and for a host of 4 cores with `k = 3`. -/
theorem shim_set_working_cpu_places_on_core_witness :
    (30 : Nat) ≤ 30 ∧ (4 : Nat) ≤ 31 ∧ (3 : Nat) < 4 ∧
    (shim.CPU_SET_S 30 4 (shim.CPU_ZERO_S 4 164) = 2 ^ 30 ∧
    (∀ j, j < 32 → Shim.CPU_ISSET_S j 4 (2 ^ 30) = decide (j = 30)) ∧
    Shim.sched_setaffinity 4 (2 ^ 30) = { core := 30, ret := 0 } ∧
    Option.map Discovery.state (get_num_cpus shim (shim_host 4) 1 initial_state) =
      some (shim_state 4) ∧
    set_working_cpu shim shim_setaffinity 4 (shim_state 4) ((3 : Nat) : Int) =
      some (.returned { cpuset := some (2 ^ 3), cpuset_ncpu := 1024, cpuset_size := 4 }
        [{ cpu_size := 4, set := 2 ^ 3, ret := 0 }]) ∧
    (Shim.sched_setaffinity 4 (2 ^ 3)).core = 3) :=
  ⟨by decide, by decide, by decide,
    shim_set_working_cpu_places_on_core 30 3 4 164 4 initial_state
      (by decide) (by decide) (by decide) (by decide)⟩

/-! ## The stored set after a call, and calls that do not return -/

/-- C15: on the native-mask platform, for a state whose stored set has `C ≥ 1`
members, all below `cpuset_ncpu`, and `k ≥ 0`, the call `set_working_cpu(k)` that
selects CPU `m` leaves `cpuset` holding the single member `m`, with `cpuset_ncpu` and
`cpuset_size` as before; and from the state it leaves, `set_working_cpu(j)` for every
`j ≥ 0` returns, requests that same CPU `m` and leaves the state as it is. -/
theorem set_working_cpu_collapses_cpuset (s : State) (set : Nat) (k : Int)
    (os : Nat → Nat → Int) (fuel : Nat)
    (hset : s.cpuset = some set)
    (hC : 1 ≤ (members s.cpuset_size set).length)
    (hbelow : ∀ i ∈ members s.cpuset_size set, (i : Int) < s.cpuset_ncpu)
    (hk : 0 ≤ k)
    (hfuel : (k.toNat + 1) * s.cpuset_ncpu.toNat ≤ fuel) :
    ∃ m,
      (members s.cpuset_size set)[k.toNat % (members s.cpuset_size set).length]? = some m ∧
      set_working_cpu native os fuel s k =
        some (.returned { s with cpuset := some (single_cpu m) }
          [{ cpu_size := s.cpuset_size, set := single_cpu m,
             ret := os s.cpuset_size (single_cpu m) }]) ∧
      members s.cpuset_size (single_cpu m) = [m] ∧
      ∀ (j : Int) (fuel2 : Nat), 0 ≤ j → (j.toNat + 1) * s.cpuset_ncpu.toNat ≤ fuel2 →
        set_working_cpu native os fuel2 { s with cpuset := some (single_cpu m) } j =
          some (.returned { s with cpuset := some (single_cpu m) }
            [{ cpu_size := s.cpuset_size, set := single_cpu m,
               ret := os s.cpuset_size (single_cpu m) }]) := by
  have hlt : k.toNat % (members s.cpuset_size set).length < (members s.cpuset_size set).length :=
    Nat.mod_lt _ hC
  obtain ⟨m, hm⟩ : ∃ m,
      (members s.cpuset_size set)[k.toNat % (members s.cpuset_size set).length]? = some m :=
    ⟨_, List.getElem?_eq_getElem hlt⟩
  have hmem : m ∈ members s.cpuset_size set := List.getElem?_mem hm
  have hm8 : m < 8 * s.cpuset_size := ((mem_members _ _ _).mp hmem).1
  have hsingle := members_single s.cpuset_size m hm8
  refine ⟨m, hm, set_working_cpu_native s set k os fuel m hset hbelow hk hm hfuel, hsingle, ?_⟩
  intro j fuel2 hj hfuel2
  have hbelow2 : ∀ i ∈ members s.cpuset_size (single_cpu m), (i : Int) < s.cpuset_ncpu := by
    intro i hi
    rw [hsingle, List.mem_singleton] at hi
    rw [hi]
    exact hbelow m hmem
  have hm2 : (members s.cpuset_size (single_cpu m))[j.toNat %
      (members s.cpuset_size (single_cpu m)).length]? = some m := by
    rw [hsingle]
    simp [Nat.mod_one]
  exact set_working_cpu_native { s with cpuset := some (single_cpu m) } (single_cpu m) j os
    fuel2 m rfl hbelow2 hj hm2 hfuel2

set_option maxRecDepth 100000 in
/-- C15 at the set {2, 5, 7} with `k = 1`: the hypotheses hold and the conclusion
follows. -/
theorem set_working_cpu_collapses_cpuset_witness :
    (native_state 164).cpuset = some 164 ∧
    1 ≤ (members 128 164).length ∧
    (∀ i ∈ members 128 164, (i : Int) < 1024) ∧
    (0 : Int) ≤ 1 ∧
    ∃ m,
      (members 128 164)[(1 : Int).toNat % (members 128 164).length]? = some m ∧
      set_working_cpu native setaffinity_ok 2048 (native_state 164) 1 =
        some (.returned { native_state 164 with cpuset := some (single_cpu m) }
          [{ cpu_size := 128, set := single_cpu m,
             ret := setaffinity_ok 128 (single_cpu m) }]) ∧
      members 128 (single_cpu m) = [m] ∧
      ∀ (j : Int) (fuel2 : Nat), 0 ≤ j → (j.toNat + 1) * (1024 : Int).toNat ≤ fuel2 →
        set_working_cpu native setaffinity_ok fuel2
            { native_state 164 with cpuset := some (single_cpu m) } j =
          some (.returned { native_state 164 with cpuset := some (single_cpu m) }
            [{ cpu_size := 128, set := single_cpu m,
               ret := setaffinity_ok 128 (single_cpu m) }]) :=
  ⟨rfl, by decide, by decide, by decide,
    set_working_cpu_collapses_cpuset (native_state 164) 164 1 setaffinity_ok 2048
      rfl (by decide) (by decide) (by decide) (by decide)⟩

theorem next_index_mod (N i : Nat) (hi : i < N) : next_index (N : Int) i = (i + 1) % N := by
  rcases Nat.lt_or_ge (i + 1) N with h | h
  · rw [next_index_lt N i h, Nat.mod_eq_of_lt h]
  · have e : i + 1 = N := by omega
    rw [next_index_last N i h, e, Nat.mod_self]

/-- When no index below the capacity is in the set, the walk only moves on: after `n`
passes it is at index `(i + n) mod N` with the counter as it was. -/
theorem walk_iterate_no_member (P : Platform) (size set N : Nat)
    (hnone : ∀ i, i < N → P.CPU_ISSET_S i size set = false) :
    ∀ (n i : Nat) (t : Int), i < N →
      walk_iterate P size set (N : Int) n { i := i, thread := t } =
        .next { i := (i + n) % N, thread := t } := by
  intro n
  induction n with
  | zero =>
    intro i t hi
    simp [walk_iterate, Nat.mod_eq_of_lt hi]
  | succ n ih =>
    intro i t hi
    have hpos : 0 < N := by omega
    have hb := hnone i hi
    have hstep : walk_step P size set (N : Int) { i := i, thread := t } =
        .next { i := next_index (N : Int) i, thread := t } := by
      simp [walk_step, hb]
    have hnext : next_index (N : Int) i < N := by
      rw [next_index_mod N i hi]
      exact Nat.mod_lt _ hpos
    show (match walk_step P size set (N : Int) { i := i, thread := t } with
      | .select i => WalkStep.select i
      | .next w1 => walk_iterate P size set (N : Int) n w1) = _
    rw [hstep]
    show walk_iterate P size set (N : Int) n { i := next_index (N : Int) i, thread := t } = _
    rw [ih _ t hnext, next_index_mod N i hi]
    have e : ((i + 1) % N + n) % N = (i + (n + 1)) % N := by
      rw [Nat.add_mod, Nat.mod_mod, ← Nat.add_mod]
      congr 1
      omega
    rw [e]

/-- When no index below the capacity is in the set, the walk selects nothing, whatever
the fuel. -/
theorem walk_no_member (P : Platform) (size set N : Nat)
    (hnone : ∀ i, i < N → P.CPU_ISSET_S i size set = false) :
    ∀ (n i : Nat) (t : Int), i < N →
      walk P size set (N : Int) n { i := i, thread := t } = none := by
  intro n
  induction n with
  | zero => intro i t _; rfl
  | succ n ih =>
    intro i t hi
    have hpos : 0 < N := by omega
    have hb := hnone i hi
    have hnext : next_index (N : Int) i < N := by
      rw [next_index_mod N i hi]
      exact Nat.mod_lt _ hpos
    rw [walk_succ_skip P size set (N : Int) n i t hb]
    exact ih _ t hnext

theorem mem_seen (P : Platform) (size set N i : Nat) :
    i ∈ seen P size set 0 N ↔ i < N ∧ P.CPU_ISSET_S i size set = true := by
  simp [seen, List.mem_filter, List.mem_range'_1]

theorem native_empty_isset (i size : Nat) : native.CPU_ISSET_S i size 0 = false := by
  rw [native_isset]
  simp

set_option maxRecDepth 100000 in
/-- C16: `set_working_cpu` need not return. When the affinity query succeeds with the
empty mask, `get_num_cpus` returns 0 and leaves `cpuset_size = 128`; from that state,
for every `k` and every number `n` of passes, the loop is still running after `n`
passes, at index `n mod 1024` and with the counter still `k`, so the call has not
returned. Conversely, on the native-mask platform, when the stored set has a member
below `cpuset_ncpu` and `k ≥ 0`, the call returns within `(k + 1) * cpuset_ncpu`
passes. -/
theorem set_working_cpu_may_not_return :
    get_num_cpus native (getaffinity_ok 0) 1 initial_state =
      some { ret := 0, state := native_state 0, queries := [(1024, 128)] } ∧
    (native_state 0).cpuset_size ≠ 0 ∧
    (∀ (k : Int) (n : Nat) (os : Nat → Nat → Int),
      walk_iterate native 128 0 1024 n { i := 0, thread := k } =
        .next { i := n % 1024, thread := k } ∧
      set_working_cpu native os n (native_state 0) k = none) ∧
    (∀ (s : State) (set : Nat) (k : Int) (os : Nat → Nat → Int) (i : Nat),
      s.cpuset = some set → i ∈ members s.cpuset_size set → (i : Int) < s.cpuset_ncpu →
      0 ≤ k →
      ∃ st calls,
        set_working_cpu native os ((k.toNat + 1) * s.cpuset_ncpu.toNat) s k =
          some (.returned st calls)) := by
  refine ⟨by decide, by decide, ?_, ?_⟩
  · intro k n os
    have hnone : ∀ i, i < 1024 → native.CPU_ISSET_S i 128 0 = false :=
      fun i _ => native_empty_isset i 128
    constructor
    · have h := walk_iterate_no_member native 128 0 1024 hnone n 0 k (by decide)
      rw [Nat.zero_add] at h
      exact h
    · have h := walk_no_member native 128 0 1024 hnone n 0 k (by decide)
      have hsize : ¬ (native_state 0).cpuset_size = 0 := by decide
      unfold set_working_cpu
      rw [if_neg hsize]
      show (match walk native 128 0 1024 n { i := 0, thread := k } with
        | none => none
        | some i => _) = _
      have h1 : walk native 128 0 1024 n { i := 0, thread := k } = none := h
      rw [h1]
  · intro s set k os i hset hmem hlt hk
    have hi8 := (mem_members _ _ _).mp hmem
    have hsize : ¬ s.cpuset_size = 0 := by omega
    have hncpu : ((s.cpuset_ncpu.toNat : Nat) : Int) = s.cpuset_ncpu := by omega
    have hkk : ((k.toNat : Nat) : Int) = k := by omega
    have hiset : native.CPU_ISSET_S i s.cpuset_size set = true := by
      rw [native_isset]
      simp [hi8.1, hi8.2]
    have hseen : i ∈ seen native s.cpuset_size set 0 s.cpuset_ncpu.toNat :=
      (mem_seen native s.cpuset_size set s.cpuset_ncpu.toNat i).mpr ⟨by omega, hiset⟩
    have hpos : 0 < (seen native s.cpuset_size set 0 s.cpuset_ncpu.toNat).length :=
      List.length_pos_of_mem hseen
    have hw := walk_select native s.cpuset_size set s.cpuset_ncpu.toNat k.toNat
      ((k.toNat + 1) * s.cpuset_ncpu.toNat) hpos (Nat.le_refl _)
    rw [List.getElem?_eq_getElem (Nat.mod_lt _ hpos), hncpu, hkk] at hw
    unfold set_working_cpu
    rw [if_neg hsize, hset]
    simp only [hw]
    exact ⟨_, _, rfl⟩

set_option maxRecDepth 100000 in
/-- C16, second part, at the set {2, 5, 7} with `k = 3`: the call returns within
4096 passes. -/
theorem set_working_cpu_may_not_return_witness :
    (native_state 164).cpuset = some 164 ∧ 2 ∈ members 128 164 ∧
    ∃ st calls,
      set_working_cpu native setaffinity_ok (((3 : Int).toNat + 1) * (1024 : Int).toNat)
        (native_state 164) 3 = some (.returned st calls) :=
  ⟨rfl, by decide,
    set_working_cpu_may_not_return.2.2.2 (native_state 164) 164 3 setaffinity_ok 2
      rfl (by decide) (by decide) (by decide)⟩

/-! ## The indices the walk tests -/

/-- Every index the walk tests is below the capacity at which it wraps. -/
theorem walk_tested_lt (P : Platform) (size set N : Nat) :
    ∀ (n i : Nat) (t : Int), i < N →
      ∀ x ∈ walk_tested P size set (N : Int) n { i := i, thread := t }, x < N := by
  intro n
  induction n with
  | zero => intro i t _ x hx; simp [walk_tested] at hx
  | succ n ih =>
    intro i t hi x hx
    have hpos : 0 < N := by omega
    have hnext : next_index (N : Int) i < N := by
      rw [next_index_mod N i hi]
      exact Nat.mod_lt _ hpos
    unfold walk_tested at hx
    rw [List.mem_cons] at hx
    rcases hx with hx | hx
    · rw [hx]; exact hi
    · cases hb : P.CPU_ISSET_S i size set with
      | false =>
        have hstep : walk_step P size set (N : Int) { i := i, thread := t } =
            .next { i := next_index (N : Int) i, thread := t } := by
          simp [walk_step, hb]
        simp only [hstep] at hx
        exact ih _ _ hnext x hx
      | true =>
        by_cases ht : t = 0
        · have hstep : walk_step P size set (N : Int) { i := i, thread := t } =
              .select i := by
            simp [walk_step, hb, ht]
          simp [hstep] at hx
        · have hstep : walk_step P size set (N : Int) { i := i, thread := t } =
              .next { i := next_index (N : Int) i, thread := int_dec t } := by
            simp [walk_step, hb, ht]
          simp only [hstep] at hx
          exact ih _ _ hnext x hx

/-- On the native-mask platform, after `j ≤ 20` retries the capacity is
`1024 * 2 ^ j` in `128 * 2 ^ j` bytes, and every index the walk tests is below the
`8 * cpuset_size` bits of the set. -/
theorem native_walk_tested_in_set (j set n : Nat) (k : Int) (hj : j ≤ 20) :
    capacity j = ((1024 * 2 ^ j : Nat) : Int) ∧
    native.CPU_ALLOC_SIZE (capacity j) = 128 * 2 ^ j ∧
    ∀ x ∈ walk_tested native (128 * 2 ^ j) set ((1024 * 2 ^ j : Nat) : Int) n
        { i := 0, thread := k }, x < 8 * (128 * 2 ^ j) := by
  refine ⟨capacity_small j hj, native_alloc_small j hj, ?_⟩
  intro x hx
  have hp : 0 < 2 ^ j := Nat.two_pow_pos j
  have h := walk_tested_lt native (128 * 2 ^ j) set (1024 * 2 ^ j) n 0 k (by omega) x hx
  omega

set_option maxRecDepth 100000 in
/-- C17 fails on the code: on the placement-hint platform, for a host of 2 cores
`get_num_cpus` leaves the mask 3 in a set of 4 bytes with the capacity 1024, and
`set_working_cpu(2)` then hands the indices 0, 1, ..., 32 to `CPU_ISSET_S` in its
first 33 passes: the index 32 is not below the 32 bits of the set. -/
theorem shim_walk_tests_index_beyond_set :
    get_num_cpus shim (shim_host 2) 1 initial_state =
      some { ret := 3, state := shim_state 2, queries := [(1024, 4)] } ∧
    shim_state 2 = { cpuset := some 3, cpuset_ncpu := 1024, cpuset_size := 4 } ∧
    walk_tested shim 4 3 1024 33 { i := 0, thread := 2 } = List.range 33 ∧
    32 ∈ walk_tested shim 4 3 1024 33 { i := 0, thread := 2 } ∧
    ¬ (32 < 8 * (shim_state 2).cpuset_size) := by
  decide

end Cpu
